import Mathlib

/-! # CoreSight Trace Memory Controller driver: read path and output-mode router

A shallow embedding of `drivers/hwtracing/coresight/coresight-tmc.c`.

* C integers are integers with explicit wrap-around: `u64` is the value stored
  in a 64-bit unsigned object (`size_t`, pointers), `s64` the value stored in a
  64-bit signed one (`loff_t`, `ssize_t`, `long`), `s32` the value of an `int`.
* Driver routines take the driver state and return the C return value, the
  state afterwards and the ordered list of the steps they performed that are
  visible outside the function (register accesses, calls into other units, the
  store to `out_mode`).  Locking is not modelled; of the log calls only the
  error messages of the two wait routines are recorded.
-/

namespace Tmc

/-! ## Machine integers and errno values -/

/-- The value of a 64-bit unsigned object after storing the integer `x`. -/
def u64 (x : Int) : Nat := (x % 2 ^ 64).toNat

/-- The value of a 64-bit signed object after storing the integer `x`. -/
def s64 (x : Int) : Int := (x + 2 ^ 63) % 2 ^ 64 - 2 ^ 63

/-- The value of an `int` after storing the integer `x`. -/
def s32 (x : Int) : Int := (x + 2 ^ 31) % 2 ^ 32 - 2 ^ 31

def EPERM : Int := 1
def EFAULT : Int := 14
def EBUSY : Int := 16
def EINVAL : Int := 22

/-- The largest errno an error pointer can carry (`linux/err.h`). -/
def MAX_ERRNO : Nat := 4095

/-- The check `IS_ERR(ptr)`: the pointer, as an unsigned long, lies in the last
`MAX_ERRNO` values of the address space. -/
def IS_ERR (ptr : Nat) : Bool := decide (2 ^ 64 - MAX_ERRNO ≤ ptr)

/-- The conversion `PTR_ERR(ptr)`: the pointer read as a `long`. -/
def PTR_ERR (ptr : Nat) : Int := s64 ptr

/-- The conversion `ERR_PTR(error)`: the `long` stored as a pointer. -/
def ERR_PTR (error : Int) : Nat := u64 error

/-! ## Data model -/

/-- Memory type of an ETR buffer. -/
inductive tmc_etr_mem_type where
  | TMC_ETR_MEM_TYPE_CONTIG
  | TMC_ETR_MEM_TYPE_SG
  deriving DecidableEq, Repr

/-- Modelled from the spec: `enum tmc_etr_out_mode` is declared in
`coresight-tmc.h`, which is not among the sources.  The two values the driver
code names are the memory mode and the streaming (USB) mode. -/
inductive tmc_etr_out_mode where
  | TMC_ETR_OUT_MODE_MEM
  | TMC_ETR_OUT_MODE_USB
  deriving DecidableEq, Repr

open tmc_etr_mem_type tmc_etr_out_mode

/-- Modelled from the spec: enumerators of `enum tmc_config_type`
(`coresight-tmc.h`, not among the sources), the values of the two-bit
configuration field of the device-id register: buffer sink. -/
def TMC_CONFIG_TYPE_ETB : Nat := 0

/-- Modelled from the spec: configuration code of the router-capable sink. -/
def TMC_CONFIG_TYPE_ETR : Nat := 1

/-- Modelled from the spec: configuration code of the link-FIFO sink. -/
def TMC_CONFIG_TYPE_ETF : Nat := 2

/-- The fields of `struct tmc_drvdata` the modelled routines read or write.
`buf`, `vaddr` and `usbch` are pointers, `size` and `len` are `u32`,
`config_type` holds `BMVAL(devid, 6, 7)`. -/
structure tmc_drvdata where
  reading : Bool
  enable : Bool
  sticky_enable : Bool
  buf : Nat
  vaddr : Nat
  size : Nat
  len : Nat
  config_type : Nat
  memtype : tmc_etr_mem_type
  out_mode : tmc_etr_out_mode
  usbch : Nat
  deriving DecidableEq, Repr

/-- Registers the modelled routines access. -/
inductive Reg where
  | TMC_STS
  | TMC_CTL
  | TMC_FFCR
  deriving DecidableEq, Repr

/-- The two cross-trigger handles of the driver state. -/
inductive Cti where
  | cti_flush
  | cti_reset
  deriving DecidableEq, Repr

/-- One externally visible step of a driver routine. -/
inductive Effect where
  | readl_relaxed (reg : Reg)
  | writel_relaxed (val : Nat) (reg : Reg)
  | coresight_timeout (reg : Reg) (position value : Nat)
  | dev_err
  | set_out_mode (mode : tmc_etr_out_mode)
  | __tmc_etr_disable_to_bam
  | tmc_etr_bam_disable
  | coresight_cti_map_trigout (cti : Cti) (trig ch : Nat)
  | coresight_cti_map_trigin (cti : Cti) (trig ch : Nat)
  | coresight_cti_unmap_trigout (cti : Cti) (trig ch : Nat)
  | coresight_cti_unmap_trigin (cti : Cti) (trig ch : Nat)
  | usb_qdss_open
  | usb_qdss_close (ch : Nat)
  | tmc_read_prepare_etb
  | tmc_read_prepare_etr
  | tmc_read_unprepare_etb
  | tmc_read_unprepare_etr
  | nonseekable_open
  deriving DecidableEq, Repr

/-- What a driver routine leaves behind: its return value, the driver state and
the steps it performed, in order. -/
structure outcome where
  ret : Int
  drvdata : tmc_drvdata
  trace : List Effect
  deriving DecidableEq, Repr

/-! ## Capture state controller -/

/-- Modelled from the spec: `TMC_CTL_CAPT_EN` (`coresight-tmc.h`, not among the
sources), the capture-enable bit of the control register. -/
def TMC_CTL_CAPT_EN : Nat := 1

/-- `tmc_enable_hw`: sets both flags and writes the capture-enable value. -/
def tmc_enable_hw (drvdata : tmc_drvdata) : tmc_drvdata × List Effect :=
  ({ drvdata with enable := true, sticky_enable := true },
   [Effect.writel_relaxed TMC_CTL_CAPT_EN Reg.TMC_CTL])

/-- `tmc_disable_hw`: clears `enable` and writes zero to the control register. -/
def tmc_disable_hw (drvdata : tmc_drvdata) : tmc_drvdata × List Effect :=
  ({ drvdata with enable := false }, [Effect.writel_relaxed 0 Reg.TMC_CTL])

/-! ## Read session manager -/

/-- The variant-specific session routines (`coresight-tmc-etf.c`,
`coresight-tmc-etr.c`), which are not among the sources: each maps the driver
state to its return value and the state it leaves. -/
structure read_ops where
  tmc_read_prepare_etb : tmc_drvdata → Int × tmc_drvdata
  tmc_read_prepare_etr : tmc_drvdata → Int × tmc_drvdata
  tmc_read_unprepare_etb : tmc_drvdata → Int × tmc_drvdata
  tmc_read_unprepare_etr : tmc_drvdata → Int × tmc_drvdata

/-- `tmc_read_prepare`. -/
def tmc_read_prepare (ops : read_ops) (drvdata : tmc_drvdata) : outcome :=
  if !drvdata.sticky_enable then
    ⟨-EPERM, drvdata, []⟩
  else if drvdata.config_type = TMC_CONFIG_TYPE_ETB
      ∨ drvdata.config_type = TMC_CONFIG_TYPE_ETF then
    ⟨(ops.tmc_read_prepare_etb drvdata).1, (ops.tmc_read_prepare_etb drvdata).2,
      [Effect.tmc_read_prepare_etb]⟩
  else if drvdata.config_type = TMC_CONFIG_TYPE_ETR then
    ⟨(ops.tmc_read_prepare_etr drvdata).1, (ops.tmc_read_prepare_etr drvdata).2,
      [Effect.tmc_read_prepare_etr]⟩
  else
    ⟨-EINVAL, drvdata, []⟩

/-- `tmc_read_unprepare`. -/
def tmc_read_unprepare (ops : read_ops) (drvdata : tmc_drvdata) : outcome :=
  if drvdata.config_type = TMC_CONFIG_TYPE_ETB
      ∨ drvdata.config_type = TMC_CONFIG_TYPE_ETF then
    ⟨(ops.tmc_read_unprepare_etb drvdata).1, (ops.tmc_read_unprepare_etb drvdata).2,
      [Effect.tmc_read_unprepare_etb]⟩
  else if drvdata.config_type = TMC_CONFIG_TYPE_ETR then
    ⟨(ops.tmc_read_unprepare_etr drvdata).1, (ops.tmc_read_unprepare_etr drvdata).2,
      [Effect.tmc_read_unprepare_etr]⟩
  else
    ⟨-EINVAL, drvdata, []⟩

/-- `tmc_open`. -/
def tmc_open (ops : read_ops) (drvdata : tmc_drvdata) : outcome :=
  let r := tmc_read_prepare ops drvdata
  if r.ret ≠ 0 then
    r
  else
    ⟨0, r.drvdata, r.trace ++ [Effect.nonseekable_open]⟩

/-! ## Buffer abstraction and `tmc_read` -/

/-- The slice handed to `copy_to_user`: start pointer and byte count. -/
structure read_slice where
  bufp : Nat
  len : Nat
  deriving DecidableEq, Repr

/-- Lines 151-170 of `tmc_read`: the slice computed from the driver state, the
requested length (`size_t`) and the offset `*ppos` (`loff_t`).  The argument
`sg` stands for `tmc_etr_sg_compute_read` (not among the sources), which
rewrites the pointer and the length on the scatter-gather path. -/
def tmc_read_slice (sg : tmc_drvdata → Int → read_slice → read_slice)
    (drvdata : tmc_drvdata) (len : Nat) (ppos : Int) : read_slice :=
  let bufp := u64 (drvdata.buf + ppos)
  let len := if u64 (ppos + len) > drvdata.len then u64 (drvdata.len - ppos) else len
  if drvdata.config_type = TMC_CONFIG_TYPE_ETR then
    if drvdata.memtype = TMC_ETR_MEM_TYPE_CONTIG then
      let top := u64 (drvdata.vaddr + drvdata.size)
      let bufp :=
        if bufp = top then drvdata.vaddr
        else if bufp > top then u64 (bufp - drvdata.size)
        else bufp
      let len := if u64 (bufp + len) > top then u64 (top - bufp) else len
      ⟨bufp, len⟩
    else
      sg drvdata ppos ⟨bufp, len⟩
  else
    ⟨bufp, len⟩

/-- What `tmc_read` leaves behind: the `ssize_t` it returns, the offset
afterwards and the slice it copied to the caller, if the copy succeeded. -/
structure read_result where
  ret : Int
  ppos : Int
  copied : Option read_slice
  deriving DecidableEq, Repr

/-- `tmc_read`.  The argument `copy_to_user` gives, for a source pointer and a
byte count, the number of bytes that could not be copied. -/
def tmc_read (sg : tmc_drvdata → Int → read_slice → read_slice)
    (copy_to_user : Nat → Nat → Nat)
    (drvdata : tmc_drvdata) (len : Nat) (ppos : Int) : read_result :=
  let s := tmc_read_slice sg drvdata len ppos
  if copy_to_user s.bufp s.len ≠ 0 then
    ⟨-EFAULT, ppos, none⟩
  else
    ⟨s64 s.len, s64 (ppos + s.len), some s⟩

/-! ## Output mode router -/

/-- The kernel's `isspace` on a byte (`lib/ctype.c`). -/
def isspace (c : Char) : Bool :=
  (decide (9 ≤ c.toNat) && decide (c.toNat ≤ 13)) || c.toNat == 32 || c.toNat == 160

/-- The kernel's `skip_spaces`. -/
def skip_spaces : List Char → List Char
  | [] => []
  | c :: cs => if isspace c then skip_spaces cs else c :: cs

/-- The copy loop of the `%s` conversion: characters up to the next white
space, at most `width` of them. -/
def scan_token : Nat → List Char → List Char
  | 0, _ => []
  | _ + 1, [] => []
  | w + 1, c :: cs => if isspace c then [] else c :: scan_token w cs

/-- The call `sscanf(buf, "%10s", str) == 1` of the kernel's `vsscanf`:
`none` when the input is exhausted before the conversion, otherwise the
token stored in `str`. -/
def sscanf_s10 (buf : List Char) : Option (List Char) :=
  if buf = [] then none else some (scan_token 10 (skip_spaces buf))

/-- The table `str_tmc_etr_out_mode` (`coresight-tmc.h`, not among the
sources): the names of the memory mode and of the streaming mode. -/
structure out_mode_names where
  mem : List Char
  usb : List Char
  deriving DecidableEq, Repr

/-- A name `out_mode_store` can receive as a token: not empty, fewer than ten
characters, no white space. -/
def is_token (name : List Char) : Bool :=
  decide (name ≠ []) && decide (name.length < 10) && name.all (fun c => !isspace c)

/-- The table holds two different names, each one a token. -/
def out_mode_names.wf (names : out_mode_names) : Prop :=
  is_token names.mem = true ∧ is_token names.usb = true ∧ names.mem ≠ names.usb

instance (names : out_mode_names) : Decidable names.wf := by
  unfold out_mode_names.wf; infer_instance

/-- Modelled from the spec: `tmc_etr_enable_hw` (`coresight-tmc-etr.c`, not
among the sources) re-enables hardware capture for memory mode. -/
def tmc_etr_enable_hw (drvdata : tmc_drvdata) : tmc_drvdata × List Effect :=
  tmc_enable_hw drvdata

/-- Modelled from the spec: `tmc_etr_disable_hw` (`coresight-tmc-etr.c`, not
among the sources) disables hardware capture. -/
def tmc_etr_disable_hw (drvdata : tmc_drvdata) : tmc_drvdata × List Effect :=
  tmc_disable_hw drvdata

/-- The value `size` returned through `ssize_t`. -/
def ssize (size : Nat) : Int := s64 size

/-- `out_mode_store`.  `names` is the table of mode names, `usb_open` the
pointer `usb_qdss_open` returns when it is called, `buf` the characters of the
input string before its terminator. -/
def out_mode_store (names : out_mode_names) (usb_open : Nat)
    (drvdata : tmc_drvdata) (buf : List Char) (size : Nat) : outcome :=
  if buf.length ≥ 10 then
    ⟨-EINVAL, drvdata, []⟩
  else
    match sscanf_s10 buf with
    | none => ⟨-EINVAL, drvdata, []⟩
    | some str =>
      if str = names.mem then
        if drvdata.out_mode = TMC_ETR_OUT_MODE_MEM then
          ⟨ssize size, drvdata, []⟩
        else if !drvdata.enable then
          ⟨ssize size, { drvdata with out_mode := TMC_ETR_OUT_MODE_MEM },
            [Effect.set_out_mode TMC_ETR_OUT_MODE_MEM]⟩
        else
          let hw := tmc_etr_enable_hw drvdata
          ⟨ssize size, { hw.1 with out_mode := TMC_ETR_OUT_MODE_MEM },
            [Effect.__tmc_etr_disable_to_bam] ++ hw.2 ++
            [Effect.set_out_mode TMC_ETR_OUT_MODE_MEM,
             Effect.coresight_cti_map_trigout Cti.cti_flush 3 0,
             Effect.coresight_cti_map_trigin Cti.cti_reset 2 0,
             Effect.tmc_etr_bam_disable,
             Effect.usb_qdss_close drvdata.usbch]⟩
      else if str = names.usb then
        if drvdata.out_mode = TMC_ETR_OUT_MODE_USB then
          ⟨ssize size, drvdata, []⟩
        else if !drvdata.enable then
          ⟨ssize size, { drvdata with out_mode := TMC_ETR_OUT_MODE_USB },
            [Effect.set_out_mode TMC_ETR_OUT_MODE_USB]⟩
        else if drvdata.reading then
          ⟨s32 (-EBUSY), drvdata, []⟩
        else
          let hw := tmc_etr_disable_hw drvdata
          let tr := hw.2 ++
            [Effect.set_out_mode TMC_ETR_OUT_MODE_USB,
             Effect.coresight_cti_unmap_trigout Cti.cti_flush 3 0,
             Effect.coresight_cti_unmap_trigin Cti.cti_reset 2 0,
             Effect.usb_qdss_open]
          let d := { hw.1 with out_mode := TMC_ETR_OUT_MODE_USB, usbch := usb_open }
          if IS_ERR usb_open then
            ⟨s32 (PTR_ERR usb_open), d, tr⟩
          else
            ⟨ssize size, d, tr⟩
      else
        ⟨ssize size, drvdata, []⟩

/-! ## Quiescence protocol and flush -/

/-- The value of a `u32` after storing the natural number `x`. -/
def u32 (x : Nat) : Nat := x % 2 ^ 32

/-- The macro `BIT(nr)`. -/
def BIT (nr : Nat) : Nat := 2 ^ nr

/-- The bit constants of `coresight-tmc.h` (not among the sources) used by the
flush and wait routines: the stop-on-flush mask of the formatter control
register, the position of its manual-flush bit and the position of the ready
bit of the status register. -/
structure tmc_bits where
  TMC_FFCR_STOP_ON_FLUSH : Nat
  TMC_FFCR_FLUSHMAN_BIT : Nat
  TMC_STS_TMCREADY_BIT : Nat
  deriving DecidableEq, Repr

/-- `tmc_wait_for_tmcready`.  `ready_ret` is what `coresight_timeout` returns
for the ready bit: zero when the bit was seen, an error code on a timeout. -/
def tmc_wait_for_tmcready (bits : tmc_bits) (ready_ret : Int)
    (drvdata : tmc_drvdata) : tmc_drvdata × List Effect :=
  (drvdata,
   [Effect.coresight_timeout Reg.TMC_STS bits.TMC_STS_TMCREADY_BIT 1] ++
   (if ready_ret ≠ 0 then [Effect.dev_err] else []))

/-- `tmc_flush_and_stop`.  `ffcr` is the value read from the formatter control
register, `flush_ret` and `ready_ret` are the results of the two calls of
`coresight_timeout`. -/
def tmc_flush_and_stop (bits : tmc_bits) (ffcr : Nat) (flush_ret ready_ret : Int)
    (drvdata : tmc_drvdata) : tmc_drvdata × List Effect :=
  let ffcr1 := u32 (ffcr ||| bits.TMC_FFCR_STOP_ON_FLUSH)
  let ffcr2 := u32 (ffcr1 ||| BIT bits.TMC_FFCR_FLUSHMAN_BIT)
  let w := tmc_wait_for_tmcready bits ready_ret drvdata
  (w.1,
   [Effect.readl_relaxed Reg.TMC_FFCR,
    Effect.writel_relaxed ffcr1 Reg.TMC_FFCR,
    Effect.writel_relaxed ffcr2 Reg.TMC_FFCR,
    Effect.coresight_timeout Reg.TMC_FFCR bits.TMC_FFCR_FLUSHMAN_BIT 0] ++
   (if flush_ret ≠ 0 then [Effect.dev_err] else []) ++ w.2)

/-- The steps of a trace other than error messages. -/
def without_logs (trace : List Effect) : List Effect :=
  trace.filter (fun e => decide (e ≠ Effect.dev_err))

/-- The register writes of a trace. -/
def writes_of (trace : List Effect) : List Effect :=
  trace.filter (fun e => match e with
    | Effect.writel_relaxed _ _ => true
    | _ => false)

/-! ## Sequences of enable and disable calls -/

/-- A call of one of the two capture routines, `tmc_enable_hw` or
`tmc_disable_hw`. -/
inductive hw_call where
  | enable
  | disable
  deriving DecidableEq, Repr

/-- Runs one call. -/
def hw_call.run (c : hw_call) (drvdata : tmc_drvdata) : tmc_drvdata × List Effect :=
  match c with
  | hw_call.enable => tmc_enable_hw drvdata
  | hw_call.disable => tmc_disable_hw drvdata

/-- Runs a sequence of calls, first call first, collecting the steps. -/
def run_hw_calls : List hw_call → tmc_drvdata → tmc_drvdata × List Effect
  | [], drvdata => (drvdata, [])
  | c :: cs, drvdata =>
    ((run_hw_calls cs (c.run drvdata).1).1,
     (c.run drvdata).2 ++ (run_hw_calls cs (c.run drvdata).1).2)

/-- The value a call writes to the control register. -/
def hw_call.ctl_value (c : hw_call) : Nat :=
  match c with
  | hw_call.enable => TMC_CTL_CAPT_EN
  | hw_call.disable => 0

/-! ## Device discovery and release -/

/-- Modelled from the spec: the macro `BMVAL(val, lsb, msb)` of
`coresight-priv.h` (not among the sources), the value of the bit-field
`[msb:lsb]` of `val`. -/
def BMVAL (val lsb msb : Nat) : Nat := (val / 2 ^ lsb) % 2 ^ (msb - lsb + 1)

/-- The enumerators of `enum tmc_mem_intf_width` (`coresight-tmc.h`, not among
the sources). -/
structure tmc_mem_intf_width where
  TMC_MEM_INTF_WIDTH_32BITS : Nat
  TMC_MEM_INTF_WIDTH_64BITS : Nat
  TMC_MEM_INTF_WIDTH_128BITS : Nat
  TMC_MEM_INTF_WIDTH_256BITS : Nat
  deriving DecidableEq, Repr

/-- `tmc_get_memwidth`. -/
def tmc_get_memwidth (w : tmc_mem_intf_width) (devid : Nat) : Nat :=
  match BMVAL devid 8 10 with
  | 2 => w.TMC_MEM_INTF_WIDTH_32BITS
  | 3 => w.TMC_MEM_INTF_WIDTH_64BITS
  | 4 => w.TMC_MEM_INTF_WIDTH_128BITS
  | 5 => w.TMC_MEM_INTF_WIDTH_256BITS
  | _ => 0

/-- The device types `tmc_probe` registers. -/
inductive coresight_dev_type where
  | CORESIGHT_DEV_TYPE_SINK
  | CORESIGHT_DEV_TYPE_LINKSINK
  deriving DecidableEq, Repr

/-- Lines 692-713 of `tmc_probe`: the device type put in the descriptor for a
configuration type. -/
def tmc_probe_desc_type (config_type : Nat) : coresight_dev_type :=
  if config_type = TMC_CONFIG_TYPE_ETB then
    coresight_dev_type.CORESIGHT_DEV_TYPE_SINK
  else if config_type = TMC_CONFIG_TYPE_ETR then
    coresight_dev_type.CORESIGHT_DEV_TYPE_SINK
  else
    coresight_dev_type.CORESIGHT_DEV_TYPE_LINKSINK

/-- `tmc_release`. -/
def tmc_release (ops : read_ops) (drvdata : tmc_drvdata) : outcome :=
  let r := tmc_read_unprepare ops drvdata
  if r.ret ≠ 0 then
    r
  else
    ⟨0, r.drvdata, r.trace⟩

/-! ## The read session and the byte-stream file -/

/-- Modelled from the spec: `tmc_read_prepare_etb` and `tmc_read_prepare_etr`
(`coresight-tmc-etf.c`, `coresight-tmc-etr.c`, not among the sources), the
`openSession` of section 4.5.  A second session is refused with Busy (one read
session at a time, section 3); an ETR sink in streaming mode is refused with
InvalidState; otherwise capture is disabled, the amount of captured data the
hardware reports, `hw_len`, is stored in `len`, and the session is open. -/
def spec_read_prepare (hw_len : Nat) (drvdata : tmc_drvdata) : Int × tmc_drvdata :=
  if drvdata.reading then
    (-EBUSY, drvdata)
  else if drvdata.config_type = TMC_CONFIG_TYPE_ETR
      ∧ drvdata.out_mode = TMC_ETR_OUT_MODE_USB then
    (-EINVAL, drvdata)
  else
    (0, { (tmc_disable_hw drvdata).1 with len := hw_len, reading := true })

/-- Modelled from the spec: `tmc_read_unprepare_etb` and
`tmc_read_unprepare_etr` (not among the sources), the `closeSession` of
section 4.5.  It fails when no session is open; otherwise it re-arms capture,
except for an ETR sink in streaming mode, and the session is closed. -/
def spec_read_unprepare (drvdata : tmc_drvdata) : Int × tmc_drvdata :=
  if !drvdata.reading then
    (-EINVAL, drvdata)
  else if drvdata.config_type = TMC_CONFIG_TYPE_ETR
      ∧ drvdata.out_mode = TMC_ETR_OUT_MODE_USB then
    (0, { drvdata with reading := false })
  else
    (0, { (tmc_enable_hw drvdata).1 with reading := false })

/-- The session routines of the spec, for a hardware that reports `hw_len`
bytes of captured data. -/
def spec_ops (hw_len : Nat) : read_ops :=
  { tmc_read_prepare_etb := spec_read_prepare hw_len,
    tmc_read_prepare_etr := spec_read_prepare hw_len,
    tmc_read_unprepare_etb := spec_read_unprepare,
    tmc_read_unprepare_etr := spec_read_unprepare }

def EBADF : Int := 9

/-- The device file of one sink: the driver state and, while a file opened by
a successful `tmc_open` has not been released, its offset. -/
structure tmc_file where
  drvdata : tmc_drvdata
  f_pos : Option Int
  deriving DecidableEq, Repr

/-- A request on the device file (`tmc_fops`). -/
inductive file_call where
  | f_open
  | f_read (len : Nat)
  | f_release
  deriving DecidableEq, Repr

/-- What a request on the device file returns and copies to the caller. -/
structure file_result where
  ret : Int
  copied : Option read_slice
  deriving DecidableEq, Repr

/-- Modelled from the spec: the byte-stream interface of section 6 (the file
layer of the kernel is not among the sources).  An open request calls
`tmc_open` and leaves an open file at offset 0 when that returns 0; a read
request is passed to `tmc_read`, with the offset of the file, only while the
file is open, and fails otherwise; a release request calls `tmc_release` and
closes the file. -/
def file_step (ops : read_ops) (sg : tmc_drvdata → Int → read_slice → read_slice)
    (copy_to_user : Nat → Nat → Nat) (s : tmc_file) : file_call → tmc_file × file_result
  | file_call.f_open =>
    if (tmc_open ops s.drvdata).ret = 0 then
      (⟨(tmc_open ops s.drvdata).drvdata, some 0⟩, ⟨0, none⟩)
    else
      (⟨(tmc_open ops s.drvdata).drvdata, s.f_pos⟩, ⟨(tmc_open ops s.drvdata).ret, none⟩)
  | file_call.f_read len =>
    match s.f_pos with
    | none => (s, ⟨-EBADF, none⟩)
    | some pos =>
      (⟨s.drvdata, some (tmc_read sg copy_to_user s.drvdata len pos).ppos⟩,
       ⟨(tmc_read sg copy_to_user s.drvdata len pos).ret,
        (tmc_read sg copy_to_user s.drvdata len pos).copied⟩)
  | file_call.f_release =>
    match s.f_pos with
    | none => (s, ⟨-EBADF, none⟩)
    | some _ =>
      (⟨(tmc_release ops s.drvdata).drvdata, none⟩, ⟨(tmc_release ops s.drvdata).ret, none⟩)

/-- The state of the device file after a sequence of requests. -/
def file_run (ops : read_ops) (sg : tmc_drvdata → Int → read_slice → read_slice)
    (copy_to_user : Nat → Nat → Nat) : List file_call → tmc_file → tmc_file
  | [], s => s
  | c :: cs, s => file_run ops sg copy_to_user cs (file_step ops sg copy_to_user s c).1

/-- The fields that describe the buffer region are the same in both states. -/
def same_region (a b : tmc_drvdata) : Prop :=
  a.config_type = b.config_type ∧ a.memtype = b.memtype ∧ a.vaddr = b.vaddr ∧
  a.buf = b.buf ∧ a.size = b.size

/-- The invariant of the device file of a sink that started in the state `d0`
and whose hardware reports `hw_len` bytes: the region fields are those of
`d0`, and while the file is open its offset lies in the captured data, whose
length is `hw_len`. -/
def file_inv (hw_len : Nat) (d0 : tmc_drvdata) (s : tmc_file) : Prop :=
  same_region s.drvdata d0 ∧
  ∀ pos : Int, s.f_pos = some pos →
    0 ≤ pos ∧ pos ≤ s.drvdata.len ∧ s.drvdata.len = hw_len

/-! ## Concrete inputs used by the closed statements below -/

/-- A `copy_to_user` of a 47-bit user address space: a request of `2 ^ 47`
bytes or more is refused whole, a smaller one is copied whole. -/
def copy_user_ex : Nat → Nat → Nat := fun _ n => if n < 2 ^ 47 then 0 else n

/-- An ETR sink whose 16-byte contiguous region lies at the kernel address
`0xffffff8000001000`; the captured data, 16 bytes, starts 4 bytes into the
region; a read session is open. -/
def etr_kernel : tmc_drvdata :=
  { reading := true, enable := false, sticky_enable := true,
    buf := 0xffffff8000001004, vaddr := 0xffffff8000001000, size := 16, len := 16,
    config_type := TMC_CONFIG_TYPE_ETR, memtype := TMC_ETR_MEM_TYPE_CONTIG,
    out_mode := TMC_ETR_OUT_MODE_MEM, usbch := 0 }

/-- The bit constants of the TMC programming model: stop-on-flush is bit 12
and manual flush bit 6 of the formatter control register, ready is bit 2 of
the status register. -/
def bits_ex : tmc_bits := ⟨BIT 12, 6, 2⟩

/-- Width enumerators equal to their field codes. -/
def widths_ex : tmc_mem_intf_width := ⟨2, 3, 4, 5⟩

/-- A table with the names `mem` and `usb`. -/
def names_ex : out_mode_names := ⟨['m', 'e', 'm'], ['u', 's', 'b']⟩

/-- An ETR sink with a 16-byte contiguous region at address 4096, holding 16
bytes of captured data, in memory mode, capture disabled after having been
enabled once, no read session. -/
def etr_mem : tmc_drvdata :=
  { reading := false, enable := false, sticky_enable := true,
    buf := 4096, vaddr := 4096, size := 16, len := 16,
    config_type := TMC_CONFIG_TYPE_ETR, memtype := TMC_ETR_MEM_TYPE_CONTIG,
    out_mode := TMC_ETR_OUT_MODE_MEM, usbch := 0 }

/-- The same device configured as a link-FIFO sink. -/
def etf_dev : tmc_drvdata := { etr_mem with config_type := TMC_CONFIG_TYPE_ETF }

/-- Session routines that succeed and mark the session open or closed. -/
def ops_ex : read_ops :=
  { tmc_read_prepare_etb := fun d => (0, { d with reading := true }),
    tmc_read_prepare_etr := fun d => (0, { d with reading := true }),
    tmc_read_unprepare_etb := fun d => (0, { d with reading := false }),
    tmc_read_unprepare_etr := fun d => (0, { d with reading := false }) }

/-- A scatter-gather routine that leaves the slice as it is. -/
def sg_ex : tmc_drvdata → Int → read_slice → read_slice := fun _ _ s => s

/-! ## Lemmas on the input scanner -/

theorem skip_spaces_of_no_space (l : List Char)
    (h : l.all (fun c => !isspace c) = true) : skip_spaces l = l := by
  cases l with
  | nil => rfl
  | cons c cs =>
    simp only [List.all_cons, Bool.and_eq_true, Bool.not_eq_true'] at h
    simp [skip_spaces, h.1]

theorem scan_token_of_no_space (w : Nat) (l : List Char)
    (h : l.all (fun c => !isspace c) = true) (hl : l.length ≤ w) :
    scan_token w l = l := by
  induction l generalizing w with
  | nil => cases w <;> rfl
  | cons c cs ih =>
    simp only [List.all_cons, Bool.and_eq_true, Bool.not_eq_true'] at h
    cases w with
    | zero => simp at hl
    | succ w =>
      have hl2 : cs.length ≤ w := by simpa using hl
      simp [scan_token, h.1, ih w h.2 hl2]

theorem sscanf_s10_of_token (name : List Char) (h : is_token name = true) :
    name.length < 10 ∧ sscanf_s10 name = some name := by
  simp only [is_token, Bool.and_eq_true, decide_eq_true_eq] at h
  obtain ⟨⟨hne, hlen⟩, hall⟩ := h
  refine ⟨hlen, ?_⟩
  unfold sscanf_s10
  rw [if_neg hne, skip_spaces_of_no_space name hall,
    scan_token_of_no_space 10 name hall (Nat.le_of_lt hlen)]

/-- A call of `out_mode_store` whose input is a token: the two input checks
pass and the token is compared with the two names. -/
theorem out_mode_store_of_token (names : out_mode_names) (usb_open : Nat)
    (drvdata : tmc_drvdata) (name : List Char) (size : Nat)
    (h : is_token name = true) :
    out_mode_store names usb_open drvdata name size =
      if name = names.mem then
        if drvdata.out_mode = TMC_ETR_OUT_MODE_MEM then
          ⟨ssize size, drvdata, []⟩
        else if !drvdata.enable then
          ⟨ssize size, { drvdata with out_mode := TMC_ETR_OUT_MODE_MEM },
            [Effect.set_out_mode TMC_ETR_OUT_MODE_MEM]⟩
        else
          ⟨ssize size,
            { (tmc_etr_enable_hw drvdata).1 with out_mode := TMC_ETR_OUT_MODE_MEM },
            [Effect.__tmc_etr_disable_to_bam] ++ (tmc_etr_enable_hw drvdata).2 ++
            [Effect.set_out_mode TMC_ETR_OUT_MODE_MEM,
             Effect.coresight_cti_map_trigout Cti.cti_flush 3 0,
             Effect.coresight_cti_map_trigin Cti.cti_reset 2 0,
             Effect.tmc_etr_bam_disable,
             Effect.usb_qdss_close drvdata.usbch]⟩
      else if name = names.usb then
        if drvdata.out_mode = TMC_ETR_OUT_MODE_USB then
          ⟨ssize size, drvdata, []⟩
        else if !drvdata.enable then
          ⟨ssize size, { drvdata with out_mode := TMC_ETR_OUT_MODE_USB },
            [Effect.set_out_mode TMC_ETR_OUT_MODE_USB]⟩
        else if drvdata.reading then
          ⟨s32 (-EBUSY), drvdata, []⟩
        else if IS_ERR usb_open then
          ⟨s32 (PTR_ERR usb_open),
            { (tmc_etr_disable_hw drvdata).1 with
                out_mode := TMC_ETR_OUT_MODE_USB, usbch := usb_open },
            (tmc_etr_disable_hw drvdata).2 ++
            [Effect.set_out_mode TMC_ETR_OUT_MODE_USB,
             Effect.coresight_cti_unmap_trigout Cti.cti_flush 3 0,
             Effect.coresight_cti_unmap_trigin Cti.cti_reset 2 0,
             Effect.usb_qdss_open]⟩
        else
          ⟨ssize size,
            { (tmc_etr_disable_hw drvdata).1 with
                out_mode := TMC_ETR_OUT_MODE_USB, usbch := usb_open },
            (tmc_etr_disable_hw drvdata).2 ++
            [Effect.set_out_mode TMC_ETR_OUT_MODE_USB,
             Effect.coresight_cti_unmap_trigout Cti.cti_flush 3 0,
             Effect.coresight_cti_unmap_trigin Cti.cti_reset 2 0,
             Effect.usb_qdss_open]⟩
      else
        ⟨ssize size, drvdata, []⟩ := by
  obtain ⟨hlen, hscan⟩ := sscanf_s10_of_token name h
  unfold out_mode_store
  rw [if_neg (Nat.not_le.mpr hlen), hscan]

theorem s32_neg_errno (e : Int) (h1 : -4095 ≤ e) (h2 : e ≤ -1) : s32 e = e := by
  unfold s32; omega

/-! ## Read session manager: the sticky gate -/

/-- C1: with `sticky_enable` false, whatever the configuration type,
`tmc_read_prepare` and `tmc_open` return `-EPERM`, leave the driver state as it
was and call no variant-specific routine (the list of steps is empty). -/
theorem tmc_read_prepare_eperm (ops : read_ops) (drvdata : tmc_drvdata)
    (h : drvdata.sticky_enable = false) :
    tmc_read_prepare ops drvdata = ⟨-EPERM, drvdata, []⟩ ∧
    tmc_open ops drvdata = ⟨-EPERM, drvdata, []⟩ := by
  have hp : tmc_read_prepare ops drvdata = ⟨-EPERM, drvdata, []⟩ := by
    simp [tmc_read_prepare, h]
  refine ⟨hp, ?_⟩
  simp [tmc_open, hp, EPERM]

/-- Witness of C1 on a device that has never been enabled. -/
theorem tmc_read_prepare_eperm_witness :
    ({ etr_mem with sticky_enable := false } : tmc_drvdata).sticky_enable = false ∧
    (tmc_read_prepare ops_ex { etr_mem with sticky_enable := false }
        = ⟨-EPERM, { etr_mem with sticky_enable := false }, []⟩ ∧
     tmc_open ops_ex { etr_mem with sticky_enable := false }
        = ⟨-EPERM, { etr_mem with sticky_enable := false }, []⟩) :=
  ⟨rfl, tmc_read_prepare_eperm ops_ex { etr_mem with sticky_enable := false } rfl⟩

/-! ## Output mode router: switching to the streaming mode during a session -/

/-- C2, the code at the failing input: a sink capturing in memory mode is
opened for reading; the session disables capture, so the state has `reading`
true and `enable` false.  In that state `out_mode_store` with the stream name
leaves through the `!enable` exit before it reaches its own `reading` check:
it returns the input size 3, not `-EBUSY`, and `out_mode` becomes the
streaming mode. -/
theorem out_mode_store_usb_during_session :
    tmc_open (spec_ops 16) { etr_mem with enable := true }
      = ⟨0, { etr_mem with reading := true },
          [Effect.tmc_read_prepare_etr, Effect.nonseekable_open]⟩ ∧
    ({ etr_mem with reading := true } : tmc_drvdata).reading = true ∧
    ({ etr_mem with reading := true } : tmc_drvdata).enable = false ∧
    ({ etr_mem with reading := true } : tmc_drvdata).out_mode = TMC_ETR_OUT_MODE_MEM ∧
    out_mode_store names_ex 0 { etr_mem with reading := true } names_ex.usb 3
      = ⟨3, { etr_mem with reading := true, out_mode := TMC_ETR_OUT_MODE_USB },
          [Effect.set_out_mode TMC_ETR_OUT_MODE_USB]⟩ := by
  decide

/-! ## The read session: reads without an open session -/

/-- The session routine of the spec opens the session when it succeeds and
leaves the state as it was when it fails. -/
theorem spec_read_prepare_reading (hw_len : Nat) (drvdata : tmc_drvdata) :
    ((spec_read_prepare hw_len drvdata).1 = 0 →
      (spec_read_prepare hw_len drvdata).2.reading = true) ∧
    ((spec_read_prepare hw_len drvdata).1 ≠ 0 →
      (spec_read_prepare hw_len drvdata).2 = drvdata) := by
  unfold spec_read_prepare
  split_ifs <;> simp [EBUSY, EINVAL]

/-- `tmc_open` over the session routines of the spec: a return value of 0
means the session is open, any other one that the state is as it was. -/
theorem tmc_open_spec_reading (hw_len : Nat) (drvdata : tmc_drvdata) :
    ((tmc_open (spec_ops hw_len) drvdata).ret = 0 →
      (tmc_open (spec_ops hw_len) drvdata).drvdata.reading = true) ∧
    ((tmc_open (spec_ops hw_len) drvdata).ret ≠ 0 →
      (tmc_open (spec_ops hw_len) drvdata).drvdata = drvdata) := by
  have h := spec_read_prepare_reading hw_len drvdata
  unfold tmc_open tmc_read_prepare
  simp only [spec_ops]
  split_ifs <;> simp_all [EPERM, EINVAL]

/-- A slice short enough to be copied (fewer than `2 ^ 63` bytes) is within
the request and within the captured data. -/
theorem tmc_read_slice_len_bounded (sg : tmc_drvdata → Int → read_slice → read_slice)
    (drvdata : tmc_drvdata) (len : Nat) (ppos : Int)
    (hp0 : 0 ≤ ppos) (hp1 : ppos < 2 ^ 63) (hL : len < 2 ^ 63)
    (hpath : drvdata.config_type = TMC_CONFIG_TYPE_ETR →
      drvdata.memtype = TMC_ETR_MEM_TYPE_CONTIG ∧ 2 ^ 63 ≤ drvdata.vaddr ∧
      drvdata.vaddr ≤ drvdata.buf ∧ drvdata.buf < drvdata.vaddr + drvdata.size ∧
      drvdata.vaddr + 2 * drvdata.size ≤ 2 ^ 64 ∧ drvdata.len ≤ drvdata.size ∧
      (drvdata.buf : Int) + ppos < 2 ^ 64)
    (hs : (tmc_read_slice sg drvdata len ppos).len < 2 ^ 63) :
    (tmc_read_slice sg drvdata len ppos).len ≤ len ∧
    ppos + (tmc_read_slice sg drvdata len ppos).len ≤ drvdata.len := by
  have hq : u64 (ppos + len) = (ppos + len).toNat := by
    unfold u64; omega
  by_cases hc : drvdata.config_type = TMC_CONFIG_TYPE_ETR
  · obtain ⟨hm, hk, hvb, hbs, hw, hls, hbp⟩ := hpath hc
    simp only [tmc_read_slice, hc, hm, if_true] at hs ⊢
    have hb : u64 ((drvdata.buf : Int) + ppos) = ((drvdata.buf : Int) + ppos).toNat := by
      unfold u64; omega
    have ht : u64 ((drvdata.vaddr : Int) + drvdata.size)
        = drvdata.vaddr + drvdata.size := by
      unfold u64; omega
    rw [hb, ht, hq] at hs ⊢
    generalize hL1 : (if (ppos + len).toNat > drvdata.len
      then u64 ((drvdata.len : Int) - ppos) else len) = L1 at hs ⊢
    have hL1a : ppos ≤ drvdata.len → L1 ≤ len ∧ ppos + L1 ≤ drvdata.len := by
      intro h; rw [← hL1]; unfold u64; split_ifs <;> omega
    have hL1b : (drvdata.len : Int) < ppos →
        (L1 : Int) = 2 ^ 64 - (ppos - drvdata.len) := by
      intro h; rw [← hL1]; unfold u64; split_ifs <;> omega
    generalize hB : (if ((drvdata.buf : Int) + ppos).toNat = drvdata.vaddr + drvdata.size
      then drvdata.vaddr
      else if ((drvdata.buf : Int) + ppos).toNat > drvdata.vaddr + drvdata.size
        then u64 ((((drvdata.buf : Int) + ppos).toNat : Int) - drvdata.size)
        else ((drvdata.buf : Int) + ppos).toNat) = B at hs ⊢
    have hB1 : drvdata.vaddr ≤ B := by
      rw [← hB]; unfold u64; split_ifs <;> omega
    have hB2 : B < 2 ^ 64 := by
      rw [← hB]; unfold u64; split_ifs <;> omega
    have hB3 : ppos ≤ drvdata.len → B < drvdata.vaddr + drvdata.size := by
      intro h; rw [← hB]; unfold u64; split_ifs <;> omega
    unfold u64 at hs ⊢
    by_cases hle : ppos ≤ drvdata.len
    · have h1 := hL1a hle
      have h3 := hB3 hle
      split_ifs at hs ⊢ <;> omega
    · have h2 := hL1b (by omega)
      split_ifs at hs ⊢ <;> omega
  · simp only [tmc_read_slice, hc, if_false] at hs ⊢
    rw [hq] at hs ⊢
    unfold u64 at hs ⊢
    split_ifs at hs ⊢ <;> omega

/-- C4: for every offset a file can have (`0 ≤ *ppos < 2 ^ 63`), also one
greater than `len`, and every requested length below `2 ^ 63`, whenever
`tmc_read` copies a slice and returns its byte count, that count is at most
the requested length and at most `len` minus the offset.  The statement is
for a `copy_to_user` that refuses `2 ^ 63` bytes or more, on the buffer and
link-FIFO paths for every driver state, and on the contiguous ETR path for a
region at a kernel address (upper half of the address space) with the read
base inside it and `len ≤ size`.  At an offset greater than `len` the clamp
wraps to a count of `2 ^ 63` or more, which is never copied. -/
theorem tmc_read_count_bounded (sg : tmc_drvdata → Int → read_slice → read_slice)
    (copy_to_user : Nat → Nat → Nat) (drvdata : tmc_drvdata) (len : Nat) (ppos : Int)
    (hp0 : 0 ≤ ppos) (hp1 : ppos < 2 ^ 63) (hL : len < 2 ^ 63)
    (hcopy : ∀ bufp n : Nat, copy_to_user bufp n = 0 → n < 2 ^ 63)
    (hpath : drvdata.config_type = TMC_CONFIG_TYPE_ETR →
      drvdata.memtype = TMC_ETR_MEM_TYPE_CONTIG ∧ 2 ^ 63 ≤ drvdata.vaddr ∧
      drvdata.vaddr ≤ drvdata.buf ∧ drvdata.buf < drvdata.vaddr + drvdata.size ∧
      drvdata.vaddr + 2 * drvdata.size ≤ 2 ^ 64 ∧ drvdata.len ≤ drvdata.size ∧
      (drvdata.buf : Int) + ppos < 2 ^ 64) :
    ∀ s : read_slice, (tmc_read sg copy_to_user drvdata len ppos).copied = some s →
      s.len ≤ len ∧ ppos + s.len ≤ drvdata.len ∧
      (tmc_read sg copy_to_user drvdata len ppos).ret = s.len := by
  intro s hsome
  by_cases hc : copy_to_user (tmc_read_slice sg drvdata len ppos).bufp
      (tmc_read_slice sg drvdata len ppos).len = 0
  · have hlt := hcopy _ _ hc
    have hb := tmc_read_slice_len_bounded sg drvdata len ppos hp0 hp1 hL hpath hlt
    simp only [tmc_read, hc, ne_eq, not_true_eq_false, if_false, Option.some.injEq]
      at hsome ⊢
    subst hsome
    refine ⟨hb.1, hb.2, ?_⟩
    unfold s64; omega
  · simp [tmc_read, hc] at hsome

/-- Witness of C4 on the contiguous ETR path: 4 bytes are requested at offset
14 of 16 captured bytes; 2 bytes are copied and 2 is returned. -/
theorem tmc_read_count_bounded_witness :
    (tmc_read sg_ex copy_user_ex etr_kernel 4 14).copied
      = some ⟨0xffffff8000001002, 2⟩ ∧
    ((2 : Nat) ≤ 4 ∧ (14 : Int) + (2 : Nat) ≤ etr_kernel.len ∧
      (tmc_read sg_ex copy_user_ex etr_kernel 4 14).ret = (2 : Nat)) :=
  ⟨by decide,
   tmc_read_count_bounded sg_ex copy_user_ex etr_kernel 4 14
     (by decide) (by decide) (by decide)
     (by intro _ n h; unfold copy_user_ex at h; split_ifs at h <;> omega)
     (fun _ => by decide) ⟨0xffffff8000001002, 2⟩ (by decide)⟩

/-- At an offset greater than `len` nothing is copied: with 16 bytes captured
on a link-FIFO sink, a read of 4 bytes at offset 20 asks `copy_to_user` for
`2 ^ 64 - 4` bytes and returns `-EFAULT`. -/
theorem tmc_read_past_len_faults :
    (tmc_read_slice sg_ex etf_dev 4 20).len = 2 ^ 64 - 4 ∧
    tmc_read sg_ex copy_user_ex etf_dev 4 20 = ⟨-EFAULT, 20, none⟩ := by
  decide

/-! ## The offsets a file can reach -/

/-- `same_region` is transitive. -/
theorem same_region_trans {a b c : tmc_drvdata} (h1 : same_region a b)
    (h2 : same_region b c) : same_region a c := by
  obtain ⟨a1, a2, a3, a4, a5⟩ := h1
  obtain ⟨b1, b2, b3, b4, b5⟩ := h2
  exact ⟨a1.trans b1, a2.trans b2, a3.trans b3, a4.trans b4, a5.trans b5⟩

/-- `tmc_open` over the session routines of the spec keeps the region fields
and, when it returns 0, has stored `hw_len` in `len`. -/
theorem tmc_open_spec_region (hw_len : Nat) (d : tmc_drvdata) :
    same_region (tmc_open (spec_ops hw_len) d).drvdata d ∧
    ((tmc_open (spec_ops hw_len) d).ret = 0 →
      (tmc_open (spec_ops hw_len) d).drvdata.len = hw_len) := by
  unfold tmc_open tmc_read_prepare same_region
  simp only [spec_ops, spec_read_prepare, tmc_disable_hw]
  split_ifs <;> simp_all [EPERM, EINVAL, EBUSY]

/-- `tmc_release` over the session routines of the spec keeps the region
fields. -/
theorem tmc_release_spec_region (hw_len : Nat) (d : tmc_drvdata) :
    same_region (tmc_release (spec_ops hw_len) d).drvdata d := by
  unfold tmc_release tmc_read_unprepare same_region
  simp only [spec_ops, spec_read_unprepare, tmc_enable_hw]
  split_ifs <;> simp_all [EINVAL]

/-- One request keeps the offset of the open file inside the captured data. -/
theorem file_step_offset (hw_len : Nat) (sg : tmc_drvdata → Int → read_slice → read_slice)
    (copy_to_user : Nat → Nat → Nat) (d0 : tmc_drvdata) (s : tmc_file) (c : file_call)
    (hcopy : ∀ bufp n : Nat, copy_to_user bufp n = 0 → n < 2 ^ 63)
    (hhw : hw_len < 2 ^ 32)
    (hreg : d0.config_type = TMC_CONFIG_TYPE_ETR →
      d0.memtype = TMC_ETR_MEM_TYPE_CONTIG ∧ 2 ^ 63 ≤ d0.vaddr ∧
      d0.vaddr ≤ d0.buf ∧ d0.buf < d0.vaddr + d0.size ∧
      d0.vaddr + 2 * d0.size ≤ 2 ^ 64 ∧ hw_len ≤ d0.size)
    (hc : ∀ L : Nat, c = file_call.f_read L → L < 2 ^ 63)
    (h : file_inv hw_len d0 s) :
    file_inv hw_len d0 (file_step (spec_ops hw_len) sg copy_to_user s c).1 := by
  obtain ⟨hsame, hpos⟩ := h
  cases c with
  | f_open =>
    have ho := tmc_open_spec_region hw_len s.drvdata
    have hr := tmc_open_spec_reading hw_len s.drvdata
    unfold file_step
    by_cases hret : (tmc_open (spec_ops hw_len) s.drvdata).ret = 0
    · simp only [hret, if_true]
      refine ⟨same_region_trans ho.1 hsame, ?_⟩
      intro pos hp
      simp only [Option.some.injEq] at hp
      subst hp
      have := ho.2 hret
      dsimp only
      omega
    · simp only [hret, if_false]
      refine ⟨same_region_trans ho.1 hsame, ?_⟩
      intro pos hp
      dsimp only at hp ⊢
      rw [hr.2 hret]
      exact hpos pos hp
  | f_read L =>
    have hL := hc L rfl
    unfold file_step
    cases hp : s.f_pos with
    | none =>
      simp only
      exact ⟨hsame, fun pos hp2 => by simp [hp] at hp2⟩
    | some pos =>
      simp only
      refine ⟨hsame, ?_⟩
      intro pos2 hp2
      simp only [Option.some.injEq] at hp2
      obtain ⟨h0, h1, h2⟩ := hpos pos hp
      have hpath : s.drvdata.config_type = TMC_CONFIG_TYPE_ETR →
          s.drvdata.memtype = TMC_ETR_MEM_TYPE_CONTIG ∧ 2 ^ 63 ≤ s.drvdata.vaddr ∧
          s.drvdata.vaddr ≤ s.drvdata.buf ∧
          s.drvdata.buf < s.drvdata.vaddr + s.drvdata.size ∧
          s.drvdata.vaddr + 2 * s.drvdata.size ≤ 2 ^ 64 ∧
          s.drvdata.len ≤ s.drvdata.size ∧ (s.drvdata.buf : Int) + pos < 2 ^ 64 := by
        intro hcfg
        obtain ⟨e1, e2, e3, e4, e5⟩ := hsame
        obtain ⟨g1, g2, g3, g4, g5, g6⟩ := hreg (by rw [← e1]; exact hcfg)
        rw [e2, e3, e4, e5]
        refine ⟨g1, g2, g3, g4, g5, by omega, by omega⟩
      by_cases hcp : copy_to_user (tmc_read_slice sg s.drvdata L pos).bufp
          (tmc_read_slice sg s.drvdata L pos).len = 0
      · have hlt := hcopy _ _ hcp
        have hb := tmc_read_slice_len_bounded sg s.drvdata L pos h0 (by omega) hL hpath hlt
        simp only [tmc_read, hcp, ne_eq, not_true_eq_false, if_false] at hp2
        rw [← hp2]
        dsimp only
        unfold s64
        omega
      · simp only [tmc_read, hcp, ne_eq, not_false_eq_true, if_true] at hp2
        rw [← hp2]
        exact ⟨h0, h1, h2⟩
  | f_release =>
    have hrel := tmc_release_spec_region hw_len s.drvdata
    unfold file_step
    cases hp : s.f_pos with
    | none =>
      simp only
      exact ⟨hsame, fun pos hp2 => by simp [hp] at hp2⟩
    | some pos =>
      simp only
      exact ⟨same_region_trans hrel hsame, fun pos hp2 => by simp at hp2⟩

/-- Every sequence of requests keeps the offset inside the captured data. -/
theorem file_run_offset (hw_len : Nat) (sg : tmc_drvdata → Int → read_slice → read_slice)
    (copy_to_user : Nat → Nat → Nat) (d0 : tmc_drvdata) (calls : List file_call)
    (s : tmc_file)
    (hcopy : ∀ bufp n : Nat, copy_to_user bufp n = 0 → n < 2 ^ 63)
    (hhw : hw_len < 2 ^ 32)
    (hreg : d0.config_type = TMC_CONFIG_TYPE_ETR →
      d0.memtype = TMC_ETR_MEM_TYPE_CONTIG ∧ 2 ^ 63 ≤ d0.vaddr ∧
      d0.vaddr ≤ d0.buf ∧ d0.buf < d0.vaddr + d0.size ∧
      d0.vaddr + 2 * d0.size ≤ 2 ^ 64 ∧ hw_len ≤ d0.size)
    (hlen : ∀ L : Nat, file_call.f_read L ∈ calls → L < 2 ^ 63)
    (h : file_inv hw_len d0 s) :
    file_inv hw_len d0 (file_run (spec_ops hw_len) sg copy_to_user calls s) := by
  induction calls generalizing s with
  | nil => exact h
  | cons c cs ih =>
    simp only [file_run]
    apply ih
    · intro L hL
      exact hlen L (List.mem_cons_of_mem c hL)
    · exact file_step_offset hw_len sg copy_to_user d0 s c hcopy hhw hreg
        (fun L hc => hlen L (by rw [hc]; exact List.mem_cons_self _ _)) h

/-- The offsets `tmc_read` can be called with: from a closed file, after any
sequence of open, read and release requests with read lengths below `2 ^ 63`,
the offset of the open file satisfies `0 ≤ offset ≤ len`.  The file is not
seekable: the offset starts at 0 and moves only by the count `tmc_read`
returns. -/
theorem file_run_offset_in_data (hw_len : Nat)
    (sg : tmc_drvdata → Int → read_slice → read_slice)
    (copy_to_user : Nat → Nat → Nat) (d0 : tmc_drvdata) (calls : List file_call)
    (hcopy : ∀ bufp n : Nat, copy_to_user bufp n = 0 → n < 2 ^ 63)
    (hhw : hw_len < 2 ^ 32)
    (hreg : d0.config_type = TMC_CONFIG_TYPE_ETR →
      d0.memtype = TMC_ETR_MEM_TYPE_CONTIG ∧ 2 ^ 63 ≤ d0.vaddr ∧
      d0.vaddr ≤ d0.buf ∧ d0.buf < d0.vaddr + d0.size ∧
      d0.vaddr + 2 * d0.size ≤ 2 ^ 64 ∧ hw_len ≤ d0.size)
    (hlen : ∀ L : Nat, file_call.f_read L ∈ calls → L < 2 ^ 63) :
    ∀ pos : Int,
      (file_run (spec_ops hw_len) sg copy_to_user calls ⟨d0, none⟩).f_pos = some pos →
      0 ≤ pos ∧
      pos ≤ (file_run (spec_ops hw_len) sg copy_to_user calls ⟨d0, none⟩).drvdata.len :=
  fun pos hp =>
    let h := (file_run_offset hw_len sg copy_to_user d0 calls ⟨d0, none⟩ hcopy hhw hreg hlen
      ⟨⟨rfl, rfl, rfl, rfl, rfl⟩, fun _ hp2 => by simp at hp2⟩).2 pos hp
    ⟨h.1, h.2.1⟩

/-! ## `tmc_read`: the wrap at the end of the contiguous region -/

/-- C5, counterexample: contiguous ETR region of 16 bytes holding 16 bytes,
read base at the region base, 4 bytes requested.  At offset 16 (the size) the
slice is empty, at offset 0 it has 4 bytes: the start pointers agree, the
lengths do not. -/
theorem tmc_read_slice_wrap_law_fails :
    etr_mem.buf = etr_mem.vaddr ∧
    tmc_read_slice sg_ex etr_mem 4 16 = ⟨4096, 0⟩ ∧
    tmc_read_slice sg_ex etr_mem 4 0 = ⟨4096, 4⟩ ∧
    tmc_read_slice sg_ex etr_mem 4 (etr_mem.size : Int)
      ≠ tmc_read_slice sg_ex etr_mem 4 0 := by
  decide

/-- C5, amended: for a contiguous ETR region that is full (`len = size`, so
that the offset `size` is the end of the captured data), with the read base at
the region base, the slice at offset `size` starts where the slice at offset 0
starts, at `vaddr`, but it is empty, while the slice at offset 0 has
`min L size` bytes; the two slices are the same only for `L = 0` (or an empty
region).  The pointer wraps at the end of the region, the length clamp uses
the offset as it is. -/
theorem tmc_read_slice_wrap_law (sg : tmc_drvdata → Int → read_slice → read_slice)
    (drvdata : tmc_drvdata) (len : Nat)
    (hc : drvdata.config_type = TMC_CONFIG_TYPE_ETR)
    (hm : drvdata.memtype = TMC_ETR_MEM_TYPE_CONTIG)
    (hb : drvdata.buf = drvdata.vaddr)
    (hd : drvdata.len = drvdata.size)
    (hw : drvdata.vaddr + drvdata.size < 2 ^ 64)
    (hreq : drvdata.size + len < 2 ^ 64) :
    tmc_read_slice sg drvdata len (drvdata.size : Int) = ⟨drvdata.vaddr, 0⟩ ∧
    tmc_read_slice sg drvdata len 0 = ⟨drvdata.vaddr, min len drvdata.size⟩ ∧
    (tmc_read_slice sg drvdata len (drvdata.size : Int) = tmc_read_slice sg drvdata len 0
      ↔ len = 0 ∨ drvdata.size = 0) := by
  have h0 : u64 ((drvdata.vaddr : Int) + 0) = drvdata.vaddr := by
    unfold u64; omega
  have ht : u64 ((drvdata.vaddr : Int) + drvdata.size) = drvdata.vaddr + drvdata.size := by
    unfold u64; omega
  have hs : tmc_read_slice sg drvdata len (drvdata.size : Int) = ⟨drvdata.vaddr, 0⟩ := by
    simp only [tmc_read_slice, hc, hm, hb, hd, ht, if_true]
    have hlen : (if u64 ((drvdata.size : Int) + len) > drvdata.size
        then u64 ((drvdata.size : Int) - drvdata.size) else len) = 0 := by
      unfold u64; split_ifs <;> omega
    rw [hlen]
    have hz : ¬ u64 ((drvdata.vaddr : Int) + (0 : Nat)) > drvdata.vaddr + drvdata.size := by
      unfold u64; omega
    simp only [hz, if_false]
  have hz : tmc_read_slice sg drvdata len 0 = ⟨drvdata.vaddr, min len drvdata.size⟩ := by
    simp only [tmc_read_slice, hc, hm, hb, hd, h0, ht, if_true]
    have hlen : (if u64 ((0 : Int) + len) > drvdata.size
        then u64 ((drvdata.size : Int) - 0) else len) = min len drvdata.size := by
      unfold u64; split_ifs <;> omega
    rw [hlen]
    have hB : (if drvdata.vaddr = drvdata.vaddr + drvdata.size then drvdata.vaddr
        else if drvdata.vaddr > drvdata.vaddr + drvdata.size
          then u64 ((drvdata.vaddr : Int) - drvdata.size) else drvdata.vaddr)
        = drvdata.vaddr := by
      split_ifs <;> first | rfl | omega
    rw [hB]
    have hn : ¬ u64 ((drvdata.vaddr : Int) + (min len drvdata.size : Nat))
        > drvdata.vaddr + drvdata.size := by
      unfold u64; omega
    simp only [hn, if_false]
  refine ⟨hs, hz, ?_⟩
  rw [hs, hz]
  simp only [read_slice.mk.injEq, true_and]
  omega

/-- Witness of the amended C5: the full 16-byte region, 4 bytes requested. -/
theorem tmc_read_slice_wrap_law_witness :
    etr_mem.len = etr_mem.size ∧
    tmc_read_slice sg_ex etr_mem 4 (etr_mem.size : Int) = ⟨etr_mem.vaddr, 0⟩ ∧
    tmc_read_slice sg_ex etr_mem 4 0 = ⟨etr_mem.vaddr, min 4 etr_mem.size⟩ ∧
    (tmc_read_slice sg_ex etr_mem 4 (etr_mem.size : Int) = tmc_read_slice sg_ex etr_mem 4 0
      ↔ 4 = 0 ∨ etr_mem.size = 0) :=
  ⟨rfl, tmc_read_slice_wrap_law sg_ex etr_mem 4 rfl rfl rfl rfl (by decide) (by decide)⟩

/-- C6: for a contiguous ETR region, every offset and requested length the
non-seekable file can present, the slice `tmc_read` computes lies inside the
region in one span: `vaddr ≤ start` and `start + length ≤ vaddr + size`.  The
offset of the file starts at 0 and moves only by the clamped count, so it lies
in the captured data (`0 ≤ offset ≤ len ≤ size`) and the logical position
`o = (buf - vaddr) + offset` satisfies `0 ≤ o < 2 * size`; neither the request
nor the doubled region wraps the 64-bit range. -/
theorem tmc_read_slice_in_region (sg : tmc_drvdata → Int → read_slice → read_slice)
    (drvdata : tmc_drvdata) (len : Nat) (ppos : Int)
    (hc : drvdata.config_type = TMC_CONFIG_TYPE_ETR)
    (hm : drvdata.memtype = TMC_ETR_MEM_TYPE_CONTIG)
    (hp0 : 0 ≤ ppos) (hp1 : ppos ≤ drvdata.len) (hls : drvdata.len ≤ drvdata.size)
    (h0 : 0 ≤ (drvdata.buf : Int) - drvdata.vaddr + ppos)
    (h1 : (drvdata.buf : Int) - drvdata.vaddr + ppos < 2 * drvdata.size)
    (hreq : ppos + len < 2 ^ 64)
    (hw : drvdata.vaddr + 2 * drvdata.size ≤ 2 ^ 64) :
    drvdata.vaddr ≤ (tmc_read_slice sg drvdata len ppos).bufp ∧
    (tmc_read_slice sg drvdata len ppos).bufp + (tmc_read_slice sg drvdata len ppos).len
      ≤ drvdata.vaddr + drvdata.size := by
  simp only [tmc_read_slice, hc, hm, if_true]
  have hb : u64 ((drvdata.buf : Int) + ppos) = ((drvdata.buf : Int) + ppos).toNat := by
    unfold u64; omega
  have ht : u64 ((drvdata.vaddr : Int) + drvdata.size) = drvdata.vaddr + drvdata.size := by
    unfold u64; omega
  have hq : u64 (ppos + len) = (ppos + len).toNat := by
    unfold u64; omega
  have hd : u64 ((drvdata.len : Int) - ppos) = ((drvdata.len : Int) - ppos).toNat := by
    unfold u64; omega
  rw [hb, ht, hq, hd]
  generalize hL : (if (ppos + len).toNat > drvdata.len
    then ((drvdata.len : Int) - ppos).toNat else len) = L
  have hLle : L ≤ drvdata.len := by
    rw [← hL]; split_ifs <;> omega
  generalize hB : (if ((drvdata.buf : Int) + ppos).toNat = drvdata.vaddr + drvdata.size
    then drvdata.vaddr
    else if ((drvdata.buf : Int) + ppos).toNat > drvdata.vaddr + drvdata.size
      then u64 ((((drvdata.buf : Int) + ppos).toNat : Int) - drvdata.size)
      else ((drvdata.buf : Int) + ppos).toNat) = B
  have hBlo : drvdata.vaddr ≤ B := by
    rw [← hB]; unfold u64; split_ifs <;> omega
  have hBhi : B < drvdata.vaddr + drvdata.size := by
    rw [← hB]; unfold u64; split_ifs <;> omega
  refine ⟨hBlo, ?_⟩
  unfold u64
  split_ifs <;> omega

/-- Witness of C6: the read base is 4 bytes into the region and
the offset 14 lies in the 16 captured bytes. -/
theorem tmc_read_slice_in_region_witness :
    ({ etr_mem with buf := 4100 } : tmc_drvdata).vaddr
      ≤ (tmc_read_slice sg_ex { etr_mem with buf := 4100 } 4 14).bufp ∧
    (tmc_read_slice sg_ex { etr_mem with buf := 4100 } 4 14).bufp
        + (tmc_read_slice sg_ex { etr_mem with buf := 4100 } 4 14).len
      ≤ ({ etr_mem with buf := 4100 } : tmc_drvdata).vaddr
        + ({ etr_mem with buf := 4100 } : tmc_drvdata).size :=
  tmc_read_slice_in_region sg_ex { etr_mem with buf := 4100 } 4 14 rfl rfl
    (by decide) (by decide) (by decide) (by decide) (by decide) (by decide) (by decide)

/-- C7: for a contiguous ETR region whose doubled extent does not wrap the
64-bit range, whenever the logical position `o = (buf - vaddr) + offset`
satisfies `0 ≤ o < 2 * size`, the start pointer `tmc_read` computes is
`vaddr + (o mod size)`; in particular `o = size` gives `vaddr` and
`size < o` gives `vaddr + o - size`. -/
theorem tmc_read_slice_bufp_mod (sg : tmc_drvdata → Int → read_slice → read_slice)
    (drvdata : tmc_drvdata) (len : Nat) (ppos : Int)
    (hc : drvdata.config_type = TMC_CONFIG_TYPE_ETR)
    (hm : drvdata.memtype = TMC_ETR_MEM_TYPE_CONTIG)
    (h0 : 0 ≤ (drvdata.buf : Int) - drvdata.vaddr + ppos)
    (h1 : (drvdata.buf : Int) - drvdata.vaddr + ppos < 2 * drvdata.size)
    (hw : drvdata.vaddr + 2 * drvdata.size ≤ 2 ^ 64) :
    (tmc_read_slice sg drvdata len ppos).bufp
      = drvdata.vaddr + (((drvdata.buf : Int) - drvdata.vaddr + ppos) % drvdata.size).toNat ∧
    ((drvdata.buf : Int) - drvdata.vaddr + ppos = drvdata.size →
      (tmc_read_slice sg drvdata len ppos).bufp = drvdata.vaddr) ∧
    ((drvdata.size : Int) < (drvdata.buf : Int) - drvdata.vaddr + ppos →
      (tmc_read_slice sg drvdata len ppos).bufp
        = drvdata.vaddr + ((drvdata.buf : Int) - drvdata.vaddr + ppos - drvdata.size).toNat) := by
  have hb : u64 ((drvdata.buf : Int) + ppos) = ((drvdata.buf : Int) + ppos).toNat := by
    unfold u64; omega
  have ht : u64 ((drvdata.vaddr : Int) + drvdata.size) = drvdata.vaddr + drvdata.size := by
    unfold u64; omega
  have hgt : (drvdata.size : Int) < (drvdata.buf : Int) - drvdata.vaddr + ppos →
      ((drvdata.buf : Int) - drvdata.vaddr + ppos) % drvdata.size
        = (drvdata.buf : Int) - drvdata.vaddr + ppos - drvdata.size := by
    intro h
    rw [Int.emod_eq_sub_self_emod, Int.emod_eq_of_lt (by omega) (by omega)]
  have main : (tmc_read_slice sg drvdata len ppos).bufp
      = drvdata.vaddr
        + (((drvdata.buf : Int) - drvdata.vaddr + ppos) % drvdata.size).toNat := by
    simp only [tmc_read_slice, hc, hm, if_true]
    rw [hb, ht]
    rcases lt_trichotomy ((drvdata.buf : Int) - drvdata.vaddr + ppos) drvdata.size
      with h | h | h
    · rw [Int.emod_eq_of_lt h0 h]
      have hne : ¬ ((drvdata.buf : Int) + ppos).toNat = drvdata.vaddr + drvdata.size := by
        omega
      have hngt : ¬ ((drvdata.buf : Int) + ppos).toNat > drvdata.vaddr + drvdata.size := by
        omega
      simp only [hne, hngt, if_false]
      omega
    · rw [h, Int.emod_self]
      have he : ((drvdata.buf : Int) + ppos).toNat = drvdata.vaddr + drvdata.size := by
        omega
      simp [he]
    · rw [hgt h]
      have hne : ¬ ((drvdata.buf : Int) + ppos).toNat = drvdata.vaddr + drvdata.size := by
        omega
      have hg : ((drvdata.buf : Int) + ppos).toNat > drvdata.vaddr + drvdata.size := by
        omega
      simp only [hne, hg, if_false, if_true]
      unfold u64; omega
  refine ⟨main, ?_, ?_⟩
  · intro h
    rw [main, h, Int.emod_self]
    rfl
  · intro h
    rw [main, hgt h]

/-- Witness of C7: read base 4 bytes into the 16-byte region, offset 14, so
the logical position 18 maps to `vaddr + 2`. -/
theorem tmc_read_slice_bufp_mod_witness :
    (0 ≤ (4100 : Int) - 4096 + 14 ∧ (4100 : Int) - 4096 + 14 < 2 * 16) ∧
    (tmc_read_slice sg_ex { etr_mem with buf := 4100 } 4 14).bufp = 4096 + 2 :=
  ⟨by decide,
   (tmc_read_slice_bufp_mod sg_ex { etr_mem with buf := 4100 } 4 14 rfl rfl
     (by decide) (by decide) (by decide)).1⟩

/-! ## Output mode router: same mode, unknown names, failed channel open -/

/-- C8: when the requested mode is the current one (memory with the memory
name, streaming with the stream name), `out_mode_store` returns the input size,
leaves every field of the driver state as it was and performs no step: no
register write, no trigger map or unmap, no channel open or close. -/
theorem out_mode_store_same_mode (names : out_mode_names) (usb_open : Nat)
    (drvdata : tmc_drvdata) (size : Nat) (hn : names.wf) :
    (drvdata.out_mode = TMC_ETR_OUT_MODE_MEM →
      out_mode_store names usb_open drvdata names.mem size = ⟨ssize size, drvdata, []⟩) ∧
    (drvdata.out_mode = TMC_ETR_OUT_MODE_USB →
      out_mode_store names usb_open drvdata names.usb size = ⟨ssize size, drvdata, []⟩) ∧
    (size < 2 ^ 63 → ssize size = size) := by
  obtain ⟨hmem, husb, hne⟩ := hn
  refine ⟨?_, ?_, ?_⟩
  · intro h
    rw [out_mode_store_of_token names usb_open drvdata names.mem size hmem]
    simp [h]
  · intro h
    rw [out_mode_store_of_token names usb_open drvdata names.usb size husb,
      if_neg (Ne.symm hne)]
    simp [h]
  · intro h
    unfold ssize s64
    omega

/-- Witness of C8 on a device in memory mode with capture enabled. -/
theorem out_mode_store_same_mode_witness :
    names_ex.wf ∧
    out_mode_store names_ex 0 { etr_mem with enable := true } names_ex.mem 3
      = ⟨3, { etr_mem with enable := true }, []⟩ :=
  ⟨by decide,
   (out_mode_store_same_mode names_ex 0 { etr_mem with enable := true } 3
     (by decide)).1 rfl⟩

/-- A token that is neither of the two names reaches the end of
`out_mode_store`: the input size is returned and nothing is done. -/
theorem out_mode_store_other_token (names : out_mode_names) (usb_open : Nat)
    (drvdata : tmc_drvdata) (tok : List Char) (size : Nat)
    (ht : is_token tok = true) (h1 : tok ≠ names.mem) (h2 : tok ≠ names.usb) :
    out_mode_store names usb_open drvdata tok size = ⟨ssize size, drvdata, []⟩ := by
  rw [out_mode_store_of_token names usb_open drvdata tok size ht, if_neg h1, if_neg h2]

/-- C9, the code at the failing input: with the names `mem` and `usb`, the
three-character input `foo` matches neither name, and `out_mode_store` returns
the input size 3 (success), not `-EINVAL`; the driver state is unchanged. -/
theorem out_mode_store_unknown_name :
    ['f', 'o', 'o'] ≠ names_ex.mem ∧ ['f', 'o', 'o'] ≠ names_ex.usb ∧
    out_mode_store names_ex 0 etr_mem ['f', 'o', 'o'] 3 = ⟨3, etr_mem, []⟩ ∧
    (out_mode_store names_ex 0 etr_mem ['f', 'o', 'o'] 3).ret ≠ -EINVAL := by
  decide

/-- C10: in memory mode with capture enabled and no read session, when
`usb_qdss_open` fails with the error `e` (it returns `ERR_PTR(e)`, with
`-4095 ≤ e ≤ -1`), `out_mode_store` with the stream name returns `e`; the
state left behind has `out_mode` streaming, `enable` false and the error
pointer in `usbch`, and the steps performed are, in order: the control-register
write that disables capture, the store to `out_mode`, the two trigger unmaps
and the failed channel open. -/
theorem out_mode_store_usb_open_fails (names : out_mode_names)
    (drvdata : tmc_drvdata) (size : Nat) (e : Int) (hn : names.wf)
    (hm : drvdata.out_mode = TMC_ETR_OUT_MODE_MEM)
    (he : drvdata.enable = true) (hr : drvdata.reading = false)
    (he1 : -4095 ≤ e) (he2 : e ≤ -1) :
    out_mode_store names (ERR_PTR e) drvdata names.usb size
      = ⟨e,
         { drvdata with
             enable := false, out_mode := TMC_ETR_OUT_MODE_USB, usbch := ERR_PTR e },
         [Effect.writel_relaxed 0 Reg.TMC_CTL,
          Effect.set_out_mode TMC_ETR_OUT_MODE_USB,
          Effect.coresight_cti_unmap_trigout Cti.cti_flush 3 0,
          Effect.coresight_cti_unmap_trigin Cti.cti_reset 2 0,
          Effect.usb_qdss_open]⟩ := by
  obtain ⟨_, husb, hne⟩ := hn
  have hisErr : IS_ERR (ERR_PTR e) = true := by
    simp only [IS_ERR, ERR_PTR, u64, MAX_ERRNO, decide_eq_true_eq]
    omega
  have hptr : PTR_ERR (ERR_PTR e) = e := by
    simp only [PTR_ERR, ERR_PTR, u64, s64]
    omega
  rw [out_mode_store_of_token names (ERR_PTR e) drvdata names.usb size husb,
    if_neg (Ne.symm hne)]
  simp [hm, he, hr, hisErr, hptr, s32_neg_errno e he1 he2, tmc_etr_disable_hw,
    tmc_disable_hw]

/-- Witness of C10: the channel open fails with `-ENODEV` (`-19`). -/
theorem out_mode_store_usb_open_fails_witness :
    names_ex.wf ∧
    out_mode_store names_ex (ERR_PTR (-19)) { etr_mem with enable := true }
        names_ex.usb 3
      = ⟨-19,
         { ({ etr_mem with enable := true } : tmc_drvdata) with
             enable := false, out_mode := TMC_ETR_OUT_MODE_USB,
             usbch := ERR_PTR (-19) },
         [Effect.writel_relaxed 0 Reg.TMC_CTL,
          Effect.set_out_mode TMC_ETR_OUT_MODE_USB,
          Effect.coresight_cti_unmap_trigout Cti.cti_flush 3 0,
          Effect.coresight_cti_unmap_trigin Cti.cti_reset 2 0,
          Effect.usb_qdss_open]⟩ :=
  ⟨by decide,
   out_mode_store_usb_open_fails names_ex { etr_mem with enable := true } 3 (-19)
     (by decide) rfl rfl rfl (by decide) (by decide)⟩

/-! ## Capture state controller: sequences of enable and disable -/

/-- Running a concatenation runs the first part, then the second on the state
the first part leaves. -/
theorem run_hw_calls_append (xs ys : List hw_call) (drvdata : tmc_drvdata) :
    run_hw_calls (xs ++ ys) drvdata
      = ((run_hw_calls ys (run_hw_calls xs drvdata).1).1,
         (run_hw_calls xs drvdata).2 ++ (run_hw_calls ys (run_hw_calls xs drvdata).1).2) := by
  induction xs generalizing drvdata with
  | nil => simp [run_hw_calls]
  | cons c cs ih => simp [run_hw_calls, ih, List.append_assoc]

/-- The state a sequence of calls leaves, in closed form. -/
theorem run_hw_calls_state (calls : List hw_call) (drvdata : tmc_drvdata) :
    (run_hw_calls calls drvdata).1
      = { drvdata with
          enable := (match calls.getLast? with
            | none => drvdata.enable
            | some c => decide (c = hw_call.enable)),
          sticky_enable := drvdata.sticky_enable || decide (hw_call.enable ∈ calls) } := by
  induction calls using List.reverseRecOn with
  | nil => simp [run_hw_calls]
  | append_singleton cs c ih =>
    rw [run_hw_calls_append, List.getLast?_concat]
    simp only [run_hw_calls, ih]
    cases c <;>
      simp [hw_call.run, tmc_enable_hw, tmc_disable_hw, Bool.or_assoc]

/-- The steps of a sequence of calls: one control-register write per call. -/
theorem run_hw_calls_trace (calls : List hw_call) (drvdata : tmc_drvdata) :
    (run_hw_calls calls drvdata).2
      = calls.map (fun c => Effect.writel_relaxed c.ctl_value Reg.TMC_CTL) := by
  induction calls generalizing drvdata with
  | nil => rfl
  | cons c cs ih =>
    simp only [run_hw_calls, ih, List.map_cons]
    cases c <;> rfl

/-- C11: after any sequence of `tmc_enable_hw` and `tmc_disable_hw` calls,
`enable` is true exactly when the last call was `tmc_enable_hw` (unchanged for
the empty sequence), `sticky_enable` is its initial value or-ed with whether
the sequence contains a `tmc_enable_hw`, and no other field has changed; each
call writes the control register once, with the capture-enable value for an
enable and 0 for a disable.  So `sticky_enable` never goes from true to false,
and after an enable followed by a disable `tmc_read_prepare` passes the sticky
gate and dispatches on the configuration type. -/
theorem run_hw_calls_flags (calls : List hw_call) (drvdata : tmc_drvdata)
    (ops : read_ops) :
    (run_hw_calls calls drvdata).1
      = { drvdata with
          enable := (match calls.getLast? with
            | none => drvdata.enable
            | some c => decide (c = hw_call.enable)),
          sticky_enable := drvdata.sticky_enable || decide (hw_call.enable ∈ calls) } ∧
    (run_hw_calls calls drvdata).2
      = calls.map (fun c => Effect.writel_relaxed c.ctl_value Reg.TMC_CTL) ∧
    (drvdata.sticky_enable = true →
      (run_hw_calls calls drvdata).1.sticky_enable = true) ∧
    (run_hw_calls [hw_call.enable, hw_call.disable] drvdata).1
      = { drvdata with enable := false, sticky_enable := true } ∧
    tmc_read_prepare ops { drvdata with enable := false, sticky_enable := true }
      = (if drvdata.config_type = TMC_CONFIG_TYPE_ETB
            ∨ drvdata.config_type = TMC_CONFIG_TYPE_ETF then
          ⟨(ops.tmc_read_prepare_etb
              { drvdata with enable := false, sticky_enable := true }).1,
           (ops.tmc_read_prepare_etb
              { drvdata with enable := false, sticky_enable := true }).2,
           [Effect.tmc_read_prepare_etb]⟩
        else if drvdata.config_type = TMC_CONFIG_TYPE_ETR then
          ⟨(ops.tmc_read_prepare_etr
              { drvdata with enable := false, sticky_enable := true }).1,
           (ops.tmc_read_prepare_etr
              { drvdata with enable := false, sticky_enable := true }).2,
           [Effect.tmc_read_prepare_etr]⟩
        else
          ⟨-EINVAL, { drvdata with enable := false, sticky_enable := true }, []⟩) := by
  refine ⟨run_hw_calls_state calls drvdata, run_hw_calls_trace calls drvdata, ?_, ?_, ?_⟩
  · intro h
    rw [run_hw_calls_state]
    simp [h]
  · rfl
  · simp [tmc_read_prepare]

/-- Witness of C11: a device that has been enabled before is enabled, disabled
and disabled again. -/
theorem run_hw_calls_flags_witness :
    etr_mem.sticky_enable = true ∧
    (run_hw_calls [hw_call.enable, hw_call.disable, hw_call.disable] etr_mem).1.sticky_enable
      = true :=
  ⟨rfl,
   (run_hw_calls_flags [hw_call.enable, hw_call.disable, hw_call.disable] etr_mem
     ops_ex).2.2.1 rfl⟩

/-! ## Device discovery: the memory interface width -/

/-- The field `[10:8]` of a device-id value is a code from 0 to 7. -/
theorem BMVAL_memwidth_lt (devid : Nat) : BMVAL devid 8 10 < 8 := by
  unfold BMVAL
  omega

/-- C12: `tmc_get_memwidth` is a function of the bits `[10:8]` of the
device-id value only.  The field codes 2, 3, 4 and 5 give the 32-, 64-, 128-
and 256-bit width constants, every other code (the field is below 8, so 0, 1,
6 or 7) gives 0, and two device-id values with the same bits `[10:8]` give the
same result. -/
theorem tmc_get_memwidth_table (w : tmc_mem_intf_width) (devid : Nat) :
    (BMVAL devid 8 10 = 2 → tmc_get_memwidth w devid = w.TMC_MEM_INTF_WIDTH_32BITS) ∧
    (BMVAL devid 8 10 = 3 → tmc_get_memwidth w devid = w.TMC_MEM_INTF_WIDTH_64BITS) ∧
    (BMVAL devid 8 10 = 4 → tmc_get_memwidth w devid = w.TMC_MEM_INTF_WIDTH_128BITS) ∧
    (BMVAL devid 8 10 = 5 → tmc_get_memwidth w devid = w.TMC_MEM_INTF_WIDTH_256BITS) ∧
    (BMVAL devid 8 10 = 0 ∨ BMVAL devid 8 10 = 1 ∨ BMVAL devid 8 10 = 6
        ∨ BMVAL devid 8 10 = 7 → tmc_get_memwidth w devid = 0) ∧
    (BMVAL devid 8 10 ∈ [0, 1, 2, 3, 4, 5, 6, 7]) ∧
    (∀ devid2 : Nat, BMVAL devid2 8 10 = BMVAL devid 8 10 →
      tmc_get_memwidth w devid2 = tmc_get_memwidth w devid) := by
  refine ⟨?_, ?_, ?_, ?_, ?_, ?_, ?_⟩
  · intro h; simp [tmc_get_memwidth, h]
  · intro h; simp [tmc_get_memwidth, h]
  · intro h; simp [tmc_get_memwidth, h]
  · intro h; simp [tmc_get_memwidth, h]
  · intro h
    rcases h with h | h | h | h <;> simp [tmc_get_memwidth, h]
  · have h := BMVAL_memwidth_lt devid
    simp only [List.mem_cons, List.mem_singleton]
    omega
  · intro devid2 h
    simp only [tmc_get_memwidth, h]

/-- Witness of C12: the device-id value `0x2ff` has the field code 2 and the
value `0xfffff3ff` the code 3. -/
theorem tmc_get_memwidth_table_witness :
    BMVAL 0x2ff 8 10 = 2 ∧
    tmc_get_memwidth widths_ex 0x2ff = widths_ex.TMC_MEM_INTF_WIDTH_32BITS ∧
    BMVAL 0xfffff3ff 8 10 = 3 ∧
    tmc_get_memwidth widths_ex 0xfffff3ff = widths_ex.TMC_MEM_INTF_WIDTH_64BITS :=
  ⟨by decide, (tmc_get_memwidth_table widths_ex 0x2ff).1 (by decide),
   by decide, (tmc_get_memwidth_table widths_ex 0xfffff3ff).2.1 (by decide)⟩

/-! ## Output mode router: mode changes while disabled and back to memory -/

/-- C13: with capture disabled (`enable` false) and a target mode different
from the current one, `out_mode_store` with the name of the target returns the
input size and stores the target in `out_mode`; no other field changes and
the store is the only step: no register access, no trigger map or unmap, no
channel open or close. -/
theorem out_mode_store_disabled (names : out_mode_names) (usb_open : Nat)
    (drvdata : tmc_drvdata) (size : Nat) (hn : names.wf)
    (he : drvdata.enable = false) :
    (drvdata.out_mode = TMC_ETR_OUT_MODE_USB →
      out_mode_store names usb_open drvdata names.mem size
        = ⟨ssize size, { drvdata with out_mode := TMC_ETR_OUT_MODE_MEM },
            [Effect.set_out_mode TMC_ETR_OUT_MODE_MEM]⟩) ∧
    (drvdata.out_mode = TMC_ETR_OUT_MODE_MEM →
      out_mode_store names usb_open drvdata names.usb size
        = ⟨ssize size, { drvdata with out_mode := TMC_ETR_OUT_MODE_USB },
            [Effect.set_out_mode TMC_ETR_OUT_MODE_USB]⟩) ∧
    (size < 2 ^ 63 → ssize size = size) := by
  obtain ⟨hmem, husb, hne⟩ := hn
  refine ⟨?_, ?_, ?_⟩
  · intro h
    rw [out_mode_store_of_token names usb_open drvdata names.mem size hmem]
    simp [h, he]
  · intro h
    rw [out_mode_store_of_token names usb_open drvdata names.usb size husb,
      if_neg (Ne.symm hne)]
    simp [h, he]
  · intro h
    unfold ssize s64
    omega

/-- Witness of C13: the disabled device in memory mode is switched to the
streaming mode. -/
theorem out_mode_store_disabled_witness :
    names_ex.wf ∧ etr_mem.enable = false ∧
    out_mode_store names_ex 0 etr_mem names_ex.usb 3
      = ⟨3, { etr_mem with out_mode := TMC_ETR_OUT_MODE_USB },
          [Effect.set_out_mode TMC_ETR_OUT_MODE_USB]⟩ :=
  ⟨by decide, rfl,
   (out_mode_store_disabled names_ex 0 etr_mem 3 (by decide) rfl).2.1 rfl⟩

/-- C14: in streaming mode with capture enabled, `out_mode_store` with the
memory name returns the input size and performs exactly these steps, in this
order: disable the streaming route, write the capture-enable value to the
control register, store memory in `out_mode`, map the flush trigger-out, map
the reset trigger-in, disable the streaming data path, close the streaming
channel.  Both trigger mappings come after the capture enable and the store.
The state left has `enable` and `sticky_enable` true and `out_mode` memory. -/
theorem out_mode_store_usb_to_mem (names : out_mode_names) (usb_open : Nat)
    (drvdata : tmc_drvdata) (size : Nat) (hn : names.wf)
    (hm : drvdata.out_mode = TMC_ETR_OUT_MODE_USB)
    (he : drvdata.enable = true) :
    out_mode_store names usb_open drvdata names.mem size
      = ⟨ssize size,
         { drvdata with
             enable := true, sticky_enable := true, out_mode := TMC_ETR_OUT_MODE_MEM },
         [Effect.__tmc_etr_disable_to_bam,
          Effect.writel_relaxed TMC_CTL_CAPT_EN Reg.TMC_CTL,
          Effect.set_out_mode TMC_ETR_OUT_MODE_MEM,
          Effect.coresight_cti_map_trigout Cti.cti_flush 3 0,
          Effect.coresight_cti_map_trigin Cti.cti_reset 2 0,
          Effect.tmc_etr_bam_disable,
          Effect.usb_qdss_close drvdata.usbch]⟩ := by
  obtain ⟨hmem, _, _⟩ := hn
  rw [out_mode_store_of_token names usb_open drvdata names.mem size hmem]
  simp [hm, he, tmc_etr_enable_hw, tmc_enable_hw]

/-- Witness of C14: a streaming device with the channel handle 77. -/
theorem out_mode_store_usb_to_mem_witness :
    names_ex.wf ∧
    out_mode_store names_ex 0
        { etr_mem with enable := true, out_mode := TMC_ETR_OUT_MODE_USB, usbch := 77 }
        names_ex.mem 3
      = ⟨3,
         { etr_mem with
             enable := true, sticky_enable := true, out_mode := TMC_ETR_OUT_MODE_MEM,
             usbch := 77 },
         [Effect.__tmc_etr_disable_to_bam,
          Effect.writel_relaxed TMC_CTL_CAPT_EN Reg.TMC_CTL,
          Effect.set_out_mode TMC_ETR_OUT_MODE_MEM,
          Effect.coresight_cti_map_trigout Cti.cti_flush 3 0,
          Effect.coresight_cti_map_trigin Cti.cti_reset 2 0,
          Effect.tmc_etr_bam_disable,
          Effect.usb_qdss_close 77]⟩ :=
  ⟨by decide,
   out_mode_store_usb_to_mem names_ex 0
     { etr_mem with enable := true, out_mode := TMC_ETR_OUT_MODE_USB, usbch := 77 } 3
     (by decide) rfl rfl⟩

/-! ## Flush and stop -/

/-- C15: for every value `ffcr` read from the formatter control register and
every result of the two polls, `tmc_flush_and_stop` writes the register twice,
first `ffcr | STOP_ON_FLUSH`, then `ffcr | STOP_ON_FLUSH | BIT(FLUSHMAN)`, so
every bit set in `ffcr` stays set; it then waits for the manual-flush bit to
read 0 and afterwards for the ready bit to read 1.  A timeout of either wait
only adds an error message: the steps other than messages are the same in all
four combinations, the ready wait follows a flush timeout too, and the driver
state is returned as it was. -/
theorem tmc_flush_and_stop_steps (bits : tmc_bits) (ffcr : Nat)
    (flush_ret ready_ret : Int) (drvdata : tmc_drvdata)
    (hv : ffcr < 2 ^ 32) (hs : bits.TMC_FFCR_STOP_ON_FLUSH < 2 ^ 32)
    (hf : bits.TMC_FFCR_FLUSHMAN_BIT < 32) :
    (tmc_flush_and_stop bits ffcr flush_ret ready_ret drvdata).1 = drvdata ∧
    writes_of (tmc_flush_and_stop bits ffcr flush_ret ready_ret drvdata).2
      = [Effect.writel_relaxed (ffcr ||| bits.TMC_FFCR_STOP_ON_FLUSH) Reg.TMC_FFCR,
         Effect.writel_relaxed
           (ffcr ||| bits.TMC_FFCR_STOP_ON_FLUSH ||| BIT bits.TMC_FFCR_FLUSHMAN_BIT)
           Reg.TMC_FFCR] ∧
    without_logs (tmc_flush_and_stop bits ffcr flush_ret ready_ret drvdata).2
      = [Effect.readl_relaxed Reg.TMC_FFCR,
         Effect.writel_relaxed (ffcr ||| bits.TMC_FFCR_STOP_ON_FLUSH) Reg.TMC_FFCR,
         Effect.writel_relaxed
           (ffcr ||| bits.TMC_FFCR_STOP_ON_FLUSH ||| BIT bits.TMC_FFCR_FLUSHMAN_BIT)
           Reg.TMC_FFCR,
         Effect.coresight_timeout Reg.TMC_FFCR bits.TMC_FFCR_FLUSHMAN_BIT 0,
         Effect.coresight_timeout Reg.TMC_STS bits.TMC_STS_TMCREADY_BIT 1] ∧
    (tmc_flush_and_stop bits ffcr flush_ret ready_ret drvdata).2
      = [Effect.readl_relaxed Reg.TMC_FFCR,
         Effect.writel_relaxed (ffcr ||| bits.TMC_FFCR_STOP_ON_FLUSH) Reg.TMC_FFCR,
         Effect.writel_relaxed
           (ffcr ||| bits.TMC_FFCR_STOP_ON_FLUSH ||| BIT bits.TMC_FFCR_FLUSHMAN_BIT)
           Reg.TMC_FFCR,
         Effect.coresight_timeout Reg.TMC_FFCR bits.TMC_FFCR_FLUSHMAN_BIT 0] ++
        (if flush_ret ≠ 0 then [Effect.dev_err] else []) ++
        [Effect.coresight_timeout Reg.TMC_STS bits.TMC_STS_TMCREADY_BIT 1] ++
        (if ready_ret ≠ 0 then [Effect.dev_err] else []) ∧
    (∀ i : Nat, ffcr.testBit i = true →
      (ffcr ||| bits.TMC_FFCR_STOP_ON_FLUSH).testBit i = true ∧
      (ffcr ||| bits.TMC_FFCR_STOP_ON_FLUSH ||| BIT bits.TMC_FFCR_FLUSHMAN_BIT).testBit i
        = true) := by
  have hbit : BIT bits.TMC_FFCR_FLUSHMAN_BIT < 2 ^ 32 :=
    Nat.pow_lt_pow_right (by decide) hf
  have h1 : u32 (ffcr ||| bits.TMC_FFCR_STOP_ON_FLUSH)
      = ffcr ||| bits.TMC_FFCR_STOP_ON_FLUSH :=
    Nat.mod_eq_of_lt (Nat.or_lt_two_pow hv hs)
  have h2 : u32 (ffcr ||| bits.TMC_FFCR_STOP_ON_FLUSH ||| BIT bits.TMC_FFCR_FLUSHMAN_BIT)
      = ffcr ||| bits.TMC_FFCR_STOP_ON_FLUSH ||| BIT bits.TMC_FFCR_FLUSHMAN_BIT :=
    Nat.mod_eq_of_lt (Nat.or_lt_two_pow (Nat.or_lt_two_pow hv hs) hbit)
  refine ⟨rfl, ?_, ?_, ?_, ?_⟩
  · by_cases hfl : flush_ret = 0 <;> by_cases hrd : ready_ret = 0 <;>
      simp [tmc_flush_and_stop, tmc_wait_for_tmcready, writes_of, h1, h2, hfl, hrd]
  · by_cases hfl : flush_ret = 0 <;> by_cases hrd : ready_ret = 0 <;>
      simp [tmc_flush_and_stop, tmc_wait_for_tmcready, without_logs, h1, h2, hfl, hrd]
  · simp [tmc_flush_and_stop, tmc_wait_for_tmcready, h1, h2]
  · intro i hi
    simp [Nat.testBit_or, hi]

/-- Witness of C15: the register reads 3, the flush poll times out and the
ready poll succeeds. -/
theorem tmc_flush_and_stop_steps_witness :
    (3 < 2 ^ 32 ∧ bits_ex.TMC_FFCR_STOP_ON_FLUSH < 2 ^ 32
      ∧ bits_ex.TMC_FFCR_FLUSHMAN_BIT < 32) ∧
    writes_of (tmc_flush_and_stop bits_ex 3 (-11) 0 etr_mem).2
      = [Effect.writel_relaxed (3 ||| bits_ex.TMC_FFCR_STOP_ON_FLUSH) Reg.TMC_FFCR,
         Effect.writel_relaxed
           (3 ||| bits_ex.TMC_FFCR_STOP_ON_FLUSH ||| BIT bits_ex.TMC_FFCR_FLUSHMAN_BIT)
           Reg.TMC_FFCR] :=
  ⟨by decide,
   (tmc_flush_and_stop_steps bits_ex 3 (-11) 0 etr_mem (by decide) (by decide)
     (by decide)).2.1⟩

/-! ## Read session manager: an unknown configuration type -/

/-- C16: when `config_type` is none of ETB, ETF and ETR, `tmc_probe` registers
the device as a link sink, yet `tmc_read_prepare` with `sticky_enable` true and
`tmc_read_unprepare` both return `-EINVAL`, call no variant-specific routine
and leave the driver state as it was; so do `tmc_open` and `tmc_release`, and
for either value of `sticky_enable` neither of them ever returns 0. -/
theorem tmc_read_prepare_unknown_config (ops : read_ops) (drvdata : tmc_drvdata)
    (hb : drvdata.config_type ≠ TMC_CONFIG_TYPE_ETB)
    (hf : drvdata.config_type ≠ TMC_CONFIG_TYPE_ETF)
    (hr : drvdata.config_type ≠ TMC_CONFIG_TYPE_ETR) :
    tmc_probe_desc_type drvdata.config_type
      = coresight_dev_type.CORESIGHT_DEV_TYPE_LINKSINK ∧
    (drvdata.sticky_enable = true →
      tmc_read_prepare ops drvdata = ⟨-EINVAL, drvdata, []⟩ ∧
      tmc_open ops drvdata = ⟨-EINVAL, drvdata, []⟩) ∧
    tmc_read_unprepare ops drvdata = ⟨-EINVAL, drvdata, []⟩ ∧
    tmc_release ops drvdata = ⟨-EINVAL, drvdata, []⟩ ∧
    (tmc_open ops drvdata).ret ≠ 0 ∧
    (tmc_release ops drvdata).ret ≠ 0 := by
  have hun : tmc_read_unprepare ops drvdata = ⟨-EINVAL, drvdata, []⟩ := by
    simp [tmc_read_unprepare, hb, hf, hr]
  have hrel : tmc_release ops drvdata = ⟨-EINVAL, drvdata, []⟩ := by
    simp [tmc_release, hun, EINVAL]
  have hprep : drvdata.sticky_enable = true →
      tmc_read_prepare ops drvdata = ⟨-EINVAL, drvdata, []⟩ := by
    intro hs
    simp [tmc_read_prepare, hs, hb, hf, hr]
  have hopen : drvdata.sticky_enable = true →
      tmc_open ops drvdata = ⟨-EINVAL, drvdata, []⟩ := by
    intro hs
    simp [tmc_open, hprep hs, EINVAL]
  refine ⟨?_, fun hs => ⟨hprep hs, hopen hs⟩, hun, hrel, ?_, ?_⟩
  · simp [tmc_probe_desc_type, hb, hr]
  · cases hs : drvdata.sticky_enable with
    | true => rw [hopen hs]; simp [EINVAL]
    | false =>
      have hp : tmc_read_prepare ops drvdata = ⟨-EPERM, drvdata, []⟩ := by
        simp [tmc_read_prepare, hs]
      simp [tmc_open, hp, EPERM]
  · rw [hrel]; simp [EINVAL]

/-- Witness of C16: the configuration code 3 on a device enabled before. -/
theorem tmc_read_prepare_unknown_config_witness :
    ({ etr_mem with config_type := 3 } : tmc_drvdata).sticky_enable = true ∧
    tmc_read_prepare ops_ex { etr_mem with config_type := 3 }
      = ⟨-EINVAL, { etr_mem with config_type := 3 }, []⟩ ∧
    tmc_read_unprepare ops_ex { etr_mem with config_type := 3 }
      = ⟨-EINVAL, { etr_mem with config_type := 3 }, []⟩ :=
  ⟨rfl,
   ((tmc_read_prepare_unknown_config ops_ex { etr_mem with config_type := 3 }
      (by decide) (by decide) (by decide)).2.1 rfl).1,
   (tmc_read_prepare_unknown_config ops_ex { etr_mem with config_type := 3 }
      (by decide) (by decide) (by decide)).2.2.1⟩

end Tmc
